import Mathlib

/-!
Shallow embedding of the tile-compositing core of `textual-map`
(`src/textual_map/tile_loader.py`, plus the result cache and the render path
of `src/textual_map/map_widget.py`).

Modelling conventions:
* A PIL image is a pair of dimensions plus a total pixel map (`Img`).
* Network and disk I/O are oracle parameters: a `none` from the network
  oracle stands for any per-tile failure of the source (network error,
  timeout, non-2xx status, undecodable payload); the disk oracle of
  `TLState` distinguishes "no file", "corrupt file" and "file decoding to an
  image".
* The float arithmetic of the source is modelled over `ℝ`.  Python `int(x)`
  on a float is truncation toward zero (`pytrunc`), Python `//` is
  `Int.fdiv` and Python `%` on a positive divisor is `Int.emod` (written
  `%`); every divisor appearing in the source (`tile_size`, `2`, `2 ** zoom`)
  is positive at the modelled call sites.
* `PILImage.resize(..., LANCZOS)` is an abstract parameter `resample`; the
  source relies only on its output having the requested dimensions.
* The module globals of `tile_loader.py` (`_PLACEHOLDER`, the lru cache on
  `_load_tile_from_disk`, the on-disk cache directory) are threaded
  explicitly where a claim observes them.
-/

namespace TextualMap

/-- RGB colour triple, as used by the `"RGB"` PIL images of the source. -/
abbrev Color : Type := ℕ × ℕ × ℕ

/-- Model of a PIL image: pixel dimensions plus a total pixel map. -/
structure Img where
  w : ℕ
  h : ℕ
  px : ℕ → ℕ → Color

/-- `PILImage.new("RGB", (w, h), c)`. -/
def Img.new (w h : ℕ) (c : Color) : Img := ⟨w, h, fun _ _ => c⟩

/-- `base.paste(tile, (x0, y0))`: pixels inside the pasted rectangle come
from `tile`, all others are unchanged. -/
def Img.paste (base tile : Img) (x0 y0 : ℕ) : Img :=
  ⟨base.w, base.h, fun x y =>
    if x0 ≤ x ∧ x < x0 + tile.w ∧ y0 ≤ y ∧ y < y0 + tile.h then
      tile.px (x - x0) (y - y0)
    else base.px x y⟩

/-- `img.crop((0, 0, w, h))` (tile_loader.py line 145) on a box with
nonnegative extents: the result has exactly the requested dimensions;
pixels beyond the source extent are the PIL fill `(0, 0, 0)` (the composite
canvas always covers the crop box for a positive viewport, see
`c2_composite_dims_exact`).  Pillow additionally *rejects* a box whose
right edge is left of its left edge (or lower above upper) with a
`ValueError`; that error path is modelled separately by `Img.cropBox`,
which reduces to this function exactly when no error is raised. -/
def Img.crop0 (img : Img) (w h : ℕ) : Img :=
  ⟨w, h, fun x y => if x < img.w ∧ y < img.h then img.px x y else (0, 0, 0)⟩

/-- Pillow-faithful `img.crop((0, 0, w, h))` with the box taken as the raw
Python integers: every Pillow release since 3.4 raises
`ValueError("Coordinate 'right' is less than 'left'")` (resp. `'lower' ...
'upper'`) when `w < 0` (resp. `h < 0`); `none` models that raised
exception escaping.  For a nonnegative box the crop succeeds and is
`Img.crop0`. -/
def Img.cropBox (img : Img) (w h : ℤ) : Option Img :=
  if w < 0 ∨ h < 0 then none else some (img.crop0 w.toNat h.toNat)

/-- `_get_placeholder` (tile_loader.py lines 59–68): a light grey tile with a
grid of slightly darker lines every 32 pixels (for in-bounds pixels the two
`draw.line` loops colour exactly the coordinates divisible by 32). -/
def mkPlaceholder (ts : ℕ) : Img :=
  ⟨ts, ts, fun x y =>
    if x % 32 = 0 ∨ y % 32 = 0 then (220, 220, 220) else (240, 240, 240)⟩

/-- Python `int(x)` on a float: truncation toward zero. -/
noncomputable def pytrunc (x : ℝ) : ℤ := if x < 0 then ⌈x⌉ else ⌊x⌋

/-- The `xtile` computation of `deg2num` (tile_loader.py line 47):
`int((lon + 180.0) / 360.0 * n)` with `n = 2 ** zoom`. -/
noncomputable def xtile (lon : ℝ) (zoom : ℕ) : ℤ :=
  pytrunc ((lon + 180) / 360 * 2 ^ zoom)

/-- The `ytile` computation of `deg2num` (tile_loader.py lines 48–50), on an
already clamped latitude; `math.radians(lat)` is `lat * π / 180`. -/
noncomputable def ytile (lat : ℝ) (zoom : ℕ) : ℤ :=
  pytrunc ((1 - Real.arsinh (Real.tan (lat * Real.pi / 180)) / Real.pi) / 2 * 2 ^ zoom)

/-- The latitude clamp of `deg2num` (tile_loader.py line 44):
`max(min(lat, 85.05112878), -85.05112878)`. -/
noncomputable def clampLat (lat : ℝ) : ℝ := max (min lat 85.05112878) (-85.05112878)

/-- `deg2num` (tile_loader.py lines 43–51). -/
noncomputable def deg2num (lat lon : ℝ) (zoom : ℕ) : ℤ × ℤ :=
  (xtile lon zoom, ytile (clampLat lat) zoom)

/-- `download_tile` (tile_loader.py lines 71–96) with the whole disk-or-
network tile resolution abstracted into one oracle `net` (applied to the
already wrapped column): `net x y = none` is any per-tile failure.  The wrap
`x = x % n` and the rejection of `y` outside `[0, n)` are lines 72–75. -/
def download_tile (net : ℤ → ℤ → Option Img) (zoom : ℕ) (x y : ℤ) : Option Img :=
  if y < 0 ∨ (2 ^ zoom : ℤ) ≤ y then none else net (x % (2 ^ zoom : ℤ)) y

/-- `tiles_x` / `tiles_y` (tile_loader.py lines 110–111):
`max(1, (px + tile_size - 1) // tile_size + 1)` with Python floor division. -/
def tilesCount (px : ℤ) (ts : ℕ) : ℤ := max 1 ((px + ts - 1).fdiv ts + 1)

/-- `start_x` / `start_y` (tile_loader.py lines 113–114):
`center - tiles // 2`. -/
def startTile (c : ℤ) (px : ℤ) (ts : ℕ) : ℤ := c - (tilesCount px ts).fdiv 2

/-- The `(tx, ty)` grid enumerated by the nested loops of lines 124–127
(row-major: `ty` outer, `tx` inner). -/
def gridCells (tx ty : ℕ) : List (ℕ × ℕ) :=
  (List.range ty).flatMap fun j => (List.range tx).map fun i => (i, j)

/-- Per-cell tile resolution (tile_loader.py lines 130–143, minus the paste):
a fetched tile is resized to `ts × ts` when its dimensions differ
(`resample` abstracts `img.resize((ts, ts), LANCZOS)`); a failed tile
resolves to the shared placeholder `ph`. -/
def resolveTile (resample : Img → ℕ → ℕ → Img) (net : ℤ → ℤ → Option Img)
    (zoom : ℕ) (ts : ℕ) (ph : Img) (x y : ℤ) : Img :=
  match download_tile net zoom x y with
  | some img => if img.w = ts ∧ img.h = ts then img else resample img ts ts
  | none => ph

/-- The fully pasted, pre-crop canvas of `get_tiles_for_region`
(tile_loader.py lines 116–143).  Each resolved tile is `ts × ts`, so the
paste targets of distinct grid cells are disjoint and folding in row-major
order gives the same canvas as the source's `as_completed` arrival order.
`ph0` is the `_PLACEHOLDER` module global (`none` when not yet created). -/
def composeCanvas (resample : Img → ℕ → ℕ → Img) (net : ℤ → ℤ → Option Img)
    (ph0 : Option Img) (cx cy : ℤ) (zoom : ℕ) (w h : ℤ) (ts : ℕ) : Img :=
  (gridCells (tilesCount w ts).toNat (tilesCount h ts).toNat).foldl
    (fun b c =>
      b.paste
        (resolveTile resample net zoom ts (ph0.getD (mkPlaceholder ts))
          (startTile cx w ts + c.1) (startTile cy h ts + c.2))
        (c.1 * ts) (c.2 * ts))
    (Img.new ((tilesCount w ts).toNat * ts) ((tilesCount h ts).toNat * ts) (240, 240, 240))

/-- The result triple of `get_tiles_for_region` (tile_loader.py line 146). -/
structure CompositeResult where
  img : Img
  tiles_x : ℤ
  tiles_y : ℤ

/-- `get_tiles_for_region` (tile_loader.py lines 99–146) for a center
already projected to tile coordinates `(cx, cy)`. -/
def composeGrid (resample : Img → ℕ → ℕ → Img) (net : ℤ → ℤ → Option Img)
    (ph0 : Option Img) (cx cy : ℤ) (zoom : ℕ) (w h : ℤ) (ts : ℕ) : CompositeResult :=
  ⟨(composeCanvas resample net ph0 cx cy zoom w h ts).crop0 w.toNat h.toNat,
   tilesCount w ts, tilesCount h ts⟩

/-- `get_tiles_for_region` (tile_loader.py lines 99–146): project the
center with `deg2num`, build and crop the canvas, return it together with
the grid dimensions.  This is the behaviour of the source on its
non-raising path (every nonnegative viewport extent); the Pillow crop
error path for negative extents is modelled by
`get_tiles_for_region_checked`. -/
noncomputable def get_tiles_for_region (resample : Img → ℕ → ℕ → Img)
    (net : ℤ → ℤ → Option Img) (ph0 : Option Img)
    (center_lat center_lon : ℝ) (zoom : ℕ) (width_px height_px : ℤ) (ts : ℕ) :
    CompositeResult :=
  composeGrid resample net ph0 (deg2num center_lat center_lon zoom).1
    (deg2num center_lat center_lon zoom).2 zoom width_px height_px ts

/-- `get_tiles_for_region` for a projected center with the Pillow crop of
line 145 taken fallibly (`Img.cropBox`): `none` models the `ValueError`
raised for a negative crop extent escaping to the caller, in which case
nothing is returned at all. -/
def composeGridChecked (resample : Img → ℕ → ℕ → Img) (net : ℤ → ℤ → Option Img)
    (ph0 : Option Img) (cx cy : ℤ) (zoom : ℕ) (w h : ℤ) (ts : ℕ) :
    Option CompositeResult :=
  match (composeCanvas resample net ph0 cx cy zoom w h ts).cropBox w h with
  | none => none
  | some cropped => some ⟨cropped, tilesCount w ts, tilesCount h ts⟩

/-- `get_tiles_for_region` (tile_loader.py lines 99–146) with the Pillow
crop validation of line 145 modelled: for `width_px < 0` or
`height_px < 0` the crop raises `ValueError` and the function returns
nothing (`none`); otherwise it returns exactly the non-raising model
`get_tiles_for_region`. -/
noncomputable def get_tiles_for_region_checked (resample : Img → ℕ → ℕ → Img)
    (net : ℤ → ℤ → Option Img) (ph0 : Option Img)
    (center_lat center_lon : ℝ) (zoom : ℕ) (width_px height_px : ℤ) (ts : ℕ) :
    Option CompositeResult :=
  composeGridChecked resample net ph0 (deg2num center_lat center_lon zoom).1
    (deg2num center_lat center_lon zoom).2 zoom width_px height_px ts

/-- Column of the world grid actually fetched for a longitude: `xtile`
followed by the wrap `x % n` applied by `download_tile` (line 73). -/
noncomputable def usedColumn (lon : ℝ) (zoom : ℕ) : ℤ :=
  xtile lon zoom % (2 ^ zoom : ℤ)

/-- Association-list lookup, first match wins (dict and lru-cache key
lookup). -/
def lookupAssoc {κ ρ : Type} [DecidableEq κ] : List (κ × ρ) → κ → Option ρ
  | [], _ => none
  | (k, v) :: rest, q => if k = q then some v else lookupAssoc rest q

/-- Remove all entries of a key (used by the move-to-front promotion of an
LRU hit). -/
def eraseKey {κ ρ : Type} [DecidableEq κ] : List (κ × ρ) → κ → List (κ × ρ)
  | [], _ => []
  | (k, v) :: rest, q => if k = q then eraseKey rest q else (k, v) :: eraseKey rest q

/-- One call through a `functools.lru_cache` of capacity `cap` wrapped
around `f`; the state lists entries most-recently-used first.  Returns the
value, the new cache state, and whether the wrapped function actually ran
(`true` exactly on a cache miss). -/
def lruCall {κ ρ : Type} [DecidableEq κ] (cap : ℕ) (f : κ → ρ)
    (m : List (κ × ρ)) (q : κ) : ρ × List (κ × ρ) × Bool :=
  match lookupAssoc m q with
  | some v => (v, (q, v) :: eraseKey m q, false)
  | none => (f q, ((q, f q) :: m).take cap, true)

/-- Key of the widget-level result cache: the exact argument tuple
`(lat, lon, zoom, w, h)` of `get_tiles_cached` (map_widget.py lines 22–24). -/
abbrev CacheKey : Type := ℝ × ℝ × ℕ × ℤ × ℤ

/-- `get_tiles_cached` (map_widget.py lines 22–24): an `lru_cache` of
capacity 256 over `get_tiles_for_region`, which is called with the default
256-pixel tile size. -/
noncomputable def get_tiles_cached (resample : Img → ℕ → ℕ → Img)
    (net : ℤ → ℤ → Option Img) (ph0 : Option Img)
    (m : List (CacheKey × CompositeResult)) (q : CacheKey) :
    CompositeResult × List (CacheKey × CompositeResult) × Bool :=
  lruCall 256
    (fun k => get_tiles_for_region resample net ph0 k.1 k.2.1 k.2.2.1 k.2.2.2.1 k.2.2.2.2 256)
    m q

/-- Key of the tile caches: `(zoom, x, y)`, the content of the cache file
name `f"{z}_{x}_{y}.png"` (tile_loader.py line 40). -/
abbrev TileKey : Type := ℕ × ℤ × ℤ

/-- The module-level cache state of `tile_loader.py`: `mem` is the
`lru_cache` of capacity 2048 on `_load_tile_from_disk` (most-recent first);
`disk` is the cache directory, where `none` means no file, `some none` a
file that fails to decode (corrupt), and `some (some img)` a file decoding
to `img`. -/
structure TLState where
  mem : List (TileKey × Img)
  disk : TileKey → Option (Option Img)

/-- Where a `download_tile` result came from (an observer added by the
model; not part of the source). -/
inductive TileSource
  | memHit | diskRead | network | absent
deriving DecidableEq

/-- Lines 85–96 of `download_tile`: HTTP fetch, decode, `img.save`, return.
`net key = none` models any fetch or decode failure.  `saveOk = false`
models `img.save(cache_path)` raising (e.g. a full disk): the exception is
then caught by the `except` clause of line 95, which returns `None` even
though `img` had been successfully decoded — so the decoded tile is
discarded and the cache state is unchanged. -/
def networkFetch (net : TileKey → Option Img) (saveOk : Bool) (s : TLState)
    (key : TileKey) : Option Img × TileSource × TLState :=
  match net key with
  | none => (none, .absent, s)
  | some img =>
    if saveOk then
      (some img, .network, ⟨s.mem, fun k => if k = key then some (some img) else s.disk k⟩)
    else (none, .absent, s)

/-- `download_tile` (tile_loader.py lines 71–96) with the module cache state
explicit.  The disk branch mirrors lines 79–83: when the cache file exists,
`_load_tile_from_disk` is consulted — an lru-cache hit returns the cached
image (promoting it) without touching the disk; an lru miss reads and
decodes the file, inserting the image into the lru cache; a decode failure
falls through (`except: pass`) to the network path. -/
def download_tile_run (net : TileKey → Option Img) (saveOk : Bool) (s : TLState)
    (x y : ℤ) (z : ℕ) : Option Img × TileSource × TLState :=
  if y < 0 ∨ (2 ^ z : ℤ) ≤ y then (none, .absent, s)
  else
    match s.disk (z, x % (2 ^ z : ℤ), y) with
    | some fileContent =>
      match lookupAssoc s.mem (z, x % (2 ^ z : ℤ), y) with
      | some img =>
        (some img, .memHit,
          ⟨((z, x % (2 ^ z : ℤ), y), img) :: eraseKey s.mem (z, x % (2 ^ z : ℤ), y), s.disk⟩)
      | none =>
        match fileContent with
        | some img =>
          (some img, .diskRead, ⟨(((z, x % (2 ^ z : ℤ), y), img) :: s.mem).take 2048, s.disk⟩)
        | none => networkFetch net saveOk s (z, x % (2 ^ z : ℤ), y)
    | none => networkFetch net saveOk s (z, x % (2 ^ z : ℤ), y)

/-- Replace the stored value at a key, keeping the entry order (models
Python aliasing: mutating the object a cache entry references changes what
the cache returns from then on). -/
def setAssoc {κ ρ : Type} [DecidableEq κ] (m : List (κ × ρ)) (q : κ) (v : ρ) :
    List (κ × ρ) :=
  m.map fun e => if e.1 = q then (q, v) else e

/-- The cache-relevant core of `MapWidget.render` (map_widget.py lines
330–408): obtain the composite through `get_tiles_cached`, then draw the
marker, the footer rectangle and the attribution text in place on it
(`ImageDraw.Draw(img)` and the subsequent draw calls, abstracted as
`overlay`).  The drawn-on PIL object is the very object held by the
lru-cache entry, so from then on the cache returns the drawn-on raster. -/
noncomputable def render_cached (resample : Img → ℕ → ℕ → Img)
    (net : ℤ → ℤ → Option Img) (ph0 : Option Img) (overlay : Img → Img)
    (m : List (CacheKey × CompositeResult)) (q : CacheKey) :
    Img × List (CacheKey × CompositeResult) :=
  ((overlay (get_tiles_cached resample net ph0 m q).1.img),
   setAssoc (get_tiles_cached resample net ph0 m q).2.1 q
     ⟨overlay (get_tiles_cached resample net ph0 m q).1.img,
      (get_tiles_cached resample net ph0 m q).1.tiles_x,
      (get_tiles_cached resample net ph0 m q).1.tiles_y⟩)

/-- A size-correct concrete resampler, standing in for
`img.resize((a, b), LANCZOS)` in witnesses. -/
def resampleConst : Img → ℕ → ℕ → Img := fun _ a b => Img.new a b (0, 0, 0)

/-- The always-failing network oracle (every fetch times out / errors). -/
def netFail : ℤ → ℤ → Option Img := fun _ _ => none

/-- A concrete 256×256 tile image used in concrete runs. -/
def testImg : Img := Img.new 256 256 (1, 2, 3)

/-- A network oracle that always delivers `testImg`. -/
def netOk : TileKey → Option Img := fun _ => some testImg

/-- The empty tile-loader cache state (fresh process, empty cache dir). -/
def emptyTL : TLState := ⟨[], fun _ => none⟩

/-- The footer rectangle of `MapWidget.render` for a 64-pixel-high viewport
(map_widget.py lines 381–386): `footer_h = max(16, int(64 * 0.06)) = 16`, a
`(6, 6, 6)` bar across the full width. -/
def overlayFooter : Img → Img :=
  fun img => ⟨img.w, img.h, fun x y => if img.h - 16 ≤ y then (6, 6, 6) else img.px x y⟩

/-! ### Basic image lemmas -/

theorem Img.paste_px_of_mem (base tile : Img) (x0 y0 x y : ℕ)
    (hcond : x0 ≤ x ∧ x < x0 + tile.w ∧ y0 ≤ y ∧ y < y0 + tile.h) :
    (base.paste tile x0 y0).px x y = tile.px (x - x0) (y - y0) := by
  simp only [Img.paste]
  exact if_pos hcond

theorem Img.paste_px_of_not_mem (base tile : Img) (x0 y0 x y : ℕ)
    (hcond : ¬(x0 ≤ x ∧ x < x0 + tile.w ∧ y0 ≤ y ∧ y < y0 + tile.h)) :
    (base.paste tile x0 y0).px x y = base.px x y := by
  simp only [Img.paste]
  exact if_neg hcond

theorem Img.crop0_px_of_lt (img : Img) (w h x y : ℕ) (hx : x < img.w) (hy : y < img.h) :
    (img.crop0 w h).px x y = img.px x y := by
  simp only [Img.crop0]
  exact if_pos ⟨hx, hy⟩

/-! ### Disjointness of the grid-cell paste rectangles -/

theorem cell_sep {ts a b i : ℕ} (hi : i < ts) (hab : a ≠ b) :
    ¬(b * ts ≤ a * ts + i ∧ a * ts + i < b * ts + ts) := by
  rintro ⟨h1, h2⟩
  rcases Nat.lt_or_ge a b with hlt | hge
  · have h3 : (a + 1) * ts ≤ b * ts := mul_le_mul_right' hlt ts
    have h4 : (a + 1) * ts = a * ts + ts := by ring
    linarith
  · have hlt : b < a := lt_of_le_of_ne hge (Ne.symm hab)
    have h3 : (b + 1) * ts ≤ a * ts := mul_le_mul_right' hlt ts
    have h4 : (b + 1) * ts = b * ts + ts := by ring
    linarith

/-! ### Pixel content of the folded paste sequence -/

theorem foldl_paste_px_out (ts : ℕ) (hts : 0 < ts) (f : ℕ × ℕ → Img)
    (hfw : ∀ c, (f c).w = ts) (hfh : ∀ c, (f c).h = ts)
    (c : ℕ × ℕ) (i j : ℕ) (hi : i < ts) (hj : j < ts) :
    ∀ (L : List (ℕ × ℕ)) (base : Img), c ∉ L →
      (L.foldl (fun b d => b.paste (f d) (d.1 * ts) (d.2 * ts)) base).px
          (c.1 * ts + i) (c.2 * ts + j)
        = base.px (c.1 * ts + i) (c.2 * ts + j) := by
  intro L
  induction L with
  | nil => intro base _; rfl
  | cons d rest ih =>
    intro base hc
    rw [List.foldl_cons, ih _ (fun hm => hc (List.mem_cons_of_mem _ hm))]
    have hdc : d ≠ c := fun e => hc (e ▸ List.mem_cons_self d rest)
    apply Img.paste_px_of_not_mem
    rintro ⟨h1, h2, h3, h4⟩
    rw [hfw d] at h2
    rw [hfh d] at h4
    have hne : c.1 ≠ d.1 ∨ c.2 ≠ d.2 := by
      by_contra hcon
      push_neg at hcon
      apply hdc
      obtain ⟨x1, y1⟩ := c
      obtain ⟨x2, y2⟩ := d
      simp only at hcon
      simp [hcon.1, hcon.2]
    rcases hne with e | e
    · exact cell_sep hi e ⟨h1, h2⟩
    · exact cell_sep hj e ⟨h3, h4⟩

theorem foldl_paste_px_cell (ts : ℕ) (hts : 0 < ts) (f : ℕ × ℕ → Img)
    (hfw : ∀ c, (f c).w = ts) (hfh : ∀ c, (f c).h = ts)
    (c : ℕ × ℕ) (i j : ℕ) (hi : i < ts) (hj : j < ts) :
    ∀ (L : List (ℕ × ℕ)) (base : Img), L.Nodup → c ∈ L →
      (L.foldl (fun b d => b.paste (f d) (d.1 * ts) (d.2 * ts)) base).px
          (c.1 * ts + i) (c.2 * ts + j) = (f c).px i j := by
  intro L
  induction L with
  | nil => intro base _ hmem; cases hmem
  | cons d rest ih =>
    intro base hnd hmem
    rw [List.foldl_cons]
    rcases List.mem_cons.mp hmem with heq | hmem
    · subst heq
      rw [foldl_paste_px_out ts hts f hfw hfh c i j hi hj rest _
            (List.nodup_cons.mp hnd).1]
      rw [Img.paste_px_of_mem]
      · simp
      · refine ⟨Nat.le_add_right _ _, ?_, Nat.le_add_right _ _, ?_⟩
        · rw [hfw c]; omega
        · rw [hfh c]; omega
    · exact ih _ (List.nodup_cons.mp hnd).2 hmem

theorem foldl_paste_w (f : ℕ × ℕ → Img) (ts : ℕ) :
    ∀ (L : List (ℕ × ℕ)) (base : Img),
      (L.foldl (fun b d => b.paste (f d) (d.1 * ts) (d.2 * ts)) base).w = base.w := by
  intro L
  induction L with
  | nil => intro _; rfl
  | cons d rest ih => intro base; rw [List.foldl_cons, ih]; rfl

theorem foldl_paste_h (f : ℕ × ℕ → Img) (ts : ℕ) :
    ∀ (L : List (ℕ × ℕ)) (base : Img),
      (L.foldl (fun b d => b.paste (f d) (d.1 * ts) (d.2 * ts)) base).h = base.h := by
  intro L
  induction L with
  | nil => intro _; rfl
  | cons d rest ih => intro base; rw [List.foldl_cons, ih]; rfl

/-! ### The grid list -/

theorem mem_gridCells {tx ty : ℕ} {c : ℕ × ℕ} :
    c ∈ gridCells tx ty ↔ c.1 < tx ∧ c.2 < ty := by
  obtain ⟨a, b⟩ := c
  simp only [gridCells, List.mem_flatMap, List.mem_map, List.mem_range, Prod.mk.injEq]
  constructor
  · rintro ⟨j, hj, i, hi, rfl, rfl⟩
    exact ⟨hi, hj⟩
  · rintro ⟨ha, hb⟩
    exact ⟨b, hb, a, ha, rfl, rfl⟩

theorem gridCells_nodup (tx ty : ℕ) : (gridCells tx ty).Nodup := by
  unfold gridCells
  refine List.nodup_flatMap.mpr ⟨?_, ?_⟩
  · intro j _
    exact List.Nodup.map (fun a b h => congrArg Prod.fst h) (List.nodup_range tx)
  · refine (List.nodup_range ty).imp ?_
    intro j1 j2 hne p hp1 hp2
    simp only [List.mem_map, List.mem_range] at hp1 hp2
    obtain ⟨i1, _, rfl⟩ := hp1
    obtain ⟨i2, _, h⟩ := hp2
    injection h with h1 h2
    exact hne h2.symm

/-! ### Integer division and floor/ceiling -/

theorem fdiv_eq_floor (a b : ℤ) (hb : 0 < b) : a.fdiv b = ⌊(a : ℚ) / (b : ℚ)⌋ := by
  have hbq : (0 : ℚ) < (b : ℚ) := by exact_mod_cast hb
  rw [Int.fdiv_eq_ediv _ hb.le]
  have h1 : a / b * b ≤ a := Int.ediv_mul_le _ hb.ne'
  have h2 : a < (a / b + 1) * b := Int.lt_ediv_add_one_mul_self _ hb
  have h1q : ((a / b : ℤ) : ℚ) * (b : ℚ) ≤ (a : ℚ) := by exact_mod_cast h1
  have h2q : (a : ℚ) < (((a / b : ℤ) : ℚ) + 1) * (b : ℚ) := by exact_mod_cast h2
  symm
  rw [Int.floor_eq_iff]
  constructor
  · rw [le_div_iff₀ hbq]
    exact h1q
  · rw [div_lt_iff₀ hbq]
    linarith

theorem fdiv_ceil_eq (a b : ℤ) (hb : 0 < b) :
    (a + b - 1).fdiv b = ⌈(a : ℚ) / (b : ℚ)⌉ := by
  have hbq : (0 : ℚ) < (b : ℚ) := by exact_mod_cast hb
  rw [Int.fdiv_eq_ediv _ hb.le]
  have h1 : (a + b - 1) / b * b ≤ a + b - 1 := Int.ediv_mul_le _ hb.ne'
  have h2 : a + b - 1 < ((a + b - 1) / b + 1) * b := Int.lt_ediv_add_one_mul_self _ hb
  have h3 : a ≤ ((a + b - 1) / b) * b := by
    have h4 : (((a + b - 1) / b) + 1) * b = ((a + b - 1) / b) * b + b := by ring
    have h5 : a - 1 < ((a + b - 1) / b) * b := by linarith
    linarith [Int.lt_iff_add_one_le.mp h5]
  have h1q : (((a + b - 1) / b : ℤ) : ℚ) * (b : ℚ) ≤ (a : ℚ) + (b : ℚ) - 1 := by
    exact_mod_cast h1
  have h3q : (a : ℚ) ≤ (((a + b - 1) / b : ℤ) : ℚ) * (b : ℚ) := by exact_mod_cast h3
  symm
  rw [Int.ceil_eq_iff]
  constructor
  · rw [lt_div_iff₀ hbq]
    linarith
  · rw [div_le_iff₀ hbq]
    exact h3q

/-! ### Truncation and the projection -/

theorem pytrunc_of_nonneg {x : ℝ} (hx : 0 ≤ x) : pytrunc x = ⌊x⌋ := by
  unfold pytrunc
  rw [if_neg (not_lt.mpr hx)]

theorem pytrunc_of_neg {x : ℝ} (hx : x < 0) : pytrunc x = ⌈x⌉ := by
  unfold pytrunc
  rw [if_pos hx]

theorem xtile_eq_floor (lon : ℝ) (zoom : ℕ) (hlon : -180 ≤ lon) :
    xtile lon zoom = ⌊(lon + 180) / 360 * 2 ^ zoom⌋ := by
  unfold xtile
  apply pytrunc_of_nonneg
  apply mul_nonneg
  · apply div_nonneg (by linarith) (by norm_num)
  · positivity

theorem clampLat_zero : clampLat 0 = 0 := by
  unfold clampLat
  rw [min_eq_left (by norm_num), max_eq_left (by norm_num)]

theorem ytile_zero (zoom : ℕ) : ytile 0 zoom = ⌊(2 : ℝ) ^ zoom / 2⌋ := by
  unfold ytile
  have e : (0 : ℝ) * Real.pi / 180 = 0 := by ring
  rw [e, Real.tan_zero, Real.arsinh_zero, zero_div]
  rw [pytrunc_of_nonneg (by positivity)]
  congr 1
  ring

theorem deg2num_zero_zero (zoom : ℕ) :
    deg2num 0 0 zoom = (⌊(2 : ℝ) ^ zoom / 2⌋, ⌊(2 : ℝ) ^ zoom / 2⌋) := by
  have h1 : xtile 0 zoom = ⌊(2 : ℝ) ^ zoom / 2⌋ := by
    rw [xtile_eq_floor 0 zoom (by norm_num)]
    congr 1
    ring
  show (xtile 0 zoom, ytile (clampLat 0) zoom) = _
  rw [h1, clampLat_zero, ytile_zero]

/-! ### Canvas dimensions and crop coverage -/

theorem composeCanvas_w (resample : Img → ℕ → ℕ → Img) (net : ℤ → ℤ → Option Img)
    (ph0 : Option Img) (cx cy : ℤ) (zoom : ℕ) (w h : ℤ) (ts : ℕ) :
    (composeCanvas resample net ph0 cx cy zoom w h ts).w = (tilesCount w ts).toNat * ts := by
  unfold composeCanvas
  rw [foldl_paste_w
    (fun c => resolveTile resample net zoom ts (ph0.getD (mkPlaceholder ts))
      (startTile cx w ts + c.1) (startTile cy h ts + c.2)) ts]
  rfl

theorem composeCanvas_h (resample : Img → ℕ → ℕ → Img) (net : ℤ → ℤ → Option Img)
    (ph0 : Option Img) (cx cy : ℤ) (zoom : ℕ) (w h : ℤ) (ts : ℕ) :
    (composeCanvas resample net ph0 cx cy zoom w h ts).h = (tilesCount h ts).toNat * ts := by
  unfold composeCanvas
  rw [foldl_paste_h
    (fun c => resolveTile resample net zoom ts (ph0.getD (mkPlaceholder ts))
      (startTile cx w ts + c.1) (startTile cy h ts + c.2)) ts]
  rfl

theorem one_le_tilesCount (px : ℤ) (ts : ℕ) : 1 ≤ tilesCount px ts :=
  le_max_left _ _

theorem toNat_le_tilesCount_mul (w : ℤ) (ts : ℕ) (hts : 0 < ts) :
    w.toNat ≤ (tilesCount w ts).toNat * ts := by
  rcases le_or_lt w 0 with hw | hw
  · have : w.toNat = 0 := by omega
    simp [this]
  · have hb : (0 : ℤ) < (ts : ℤ) := by exact_mod_cast hts
    set q := (w + (ts : ℤ) - 1).fdiv (ts : ℤ) with hqdef
    have hq : q = (w + (ts : ℤ) - 1) / (ts : ℤ) := by
      rw [hqdef, Int.fdiv_eq_ediv _ hb.le]
    have h2 : w + (ts : ℤ) - 1 < (q + 1) * (ts : ℤ) := by
      rw [hq]
      exact Int.lt_ediv_add_one_mul_self _ hb
    have hexp : (q + 1) * (ts : ℤ) = q * (ts : ℤ) + (ts : ℤ) := by ring
    have h3 : w ≤ q * (ts : ℤ) := by
      have h4 : w - 1 < q * (ts : ℤ) := by linarith
      linarith [Int.lt_iff_add_one_le.mp h4]
    have h6 : q + 1 ≤ tilesCount w ts := by
      unfold tilesCount
      rw [← hqdef]
      exact le_max_right _ _
    have h7 : w ≤ tilesCount w ts * (ts : ℤ) := by
      have h8 : q * (ts : ℤ) ≤ tilesCount w ts * (ts : ℤ) :=
        mul_le_mul_of_nonneg_right (by linarith) hb.le
      linarith
    zify
    rw [Int.toNat_of_nonneg hw.le,
      Int.toNat_of_nonneg (by linarith [one_le_tilesCount w ts] : (0 : ℤ) ≤ tilesCount w ts)]
    exact h7

/-! ### LRU cache lemmas -/

theorem lookupAssoc_cons_self {κ ρ : Type} [DecidableEq κ] (m : List (κ × ρ)) (k : κ) (v : ρ) :
    lookupAssoc ((k, v) :: m) k = some v := by
  unfold lookupAssoc
  rw [if_pos rfl]

theorem lookupAssoc_single_ne {κ ρ : Type} [DecidableEq κ] (k q : κ) (v : ρ) (h : k ≠ q) :
    lookupAssoc [(k, v)] q = none := by
  simp [lookupAssoc, h]

theorem lruCall_lookup_self {κ ρ : Type} [DecidableEq κ] (cap : ℕ) (hcap : 0 < cap)
    (f : κ → ρ) (m : List (κ × ρ)) (q : κ) :
    lookupAssoc (lruCall cap f m q).2.1 q = some (lruCall cap f m q).1 := by
  unfold lruCall
  cases hl : lookupAssoc m q with
  | some v =>
    show lookupAssoc ((q, v) :: eraseKey m q) q = some v
    exact lookupAssoc_cons_self _ _ _
  | none =>
    show lookupAssoc (((q, f q) :: m).take cap) q = some (f q)
    obtain ⟨c, rfl⟩ : ∃ c, cap = c + 1 := ⟨cap - 1, by omega⟩
    rw [List.take_succ_cons]
    exact lookupAssoc_cons_self _ _ _

theorem lruCall_second_hit {κ ρ : Type} [DecidableEq κ] (cap : ℕ) (hcap : 0 < cap)
    (f : κ → ρ) (m : List (κ × ρ)) (q : κ) :
    (lruCall cap f (lruCall cap f m q).2.1 q).2.2 = false ∧
    (lruCall cap f (lruCall cap f m q).2.1 q).1 = (lruCall cap f m q).1 := by
  set m1 := (lruCall cap f m q).2.1 with hm1
  set v1 := (lruCall cap f m q).1 with hv1
  have h : lookupAssoc m1 q = some v1 := lruCall_lookup_self cap hcap f m q
  constructor
  · show (lruCall cap f m1 q).2.2 = false
    unfold lruCall
    rw [h]
  · show (lruCall cap f m1 q).1 = v1
    unfold lruCall
    rw [h]

theorem lruCall_miss {κ ρ : Type} [DecidableEq κ] (cap : ℕ) (f : κ → ρ)
    (m : List (κ × ρ)) (q : κ) (h : lookupAssoc m q = none) :
    (lruCall cap f m q).2.2 = true := by
  unfold lruCall
  rw [h]

theorem lruCall_empty_state {κ ρ : Type} [DecidableEq κ] (cap : ℕ) (hcap : 0 < cap)
    (f : κ → ρ) (q : κ) :
    (lruCall cap f [] q).2.1 = [(q, f q)] := by
  unfold lruCall
  show ((q, f q) :: ([] : List (κ × ρ))).take cap = [(q, f q)]
  obtain ⟨c, rfl⟩ : ∃ c, cap = c + 1 := ⟨cap - 1, by omega⟩
  rw [List.take_succ_cons]
  simp

/-! ### Claim C3 -/

/-- C3 (counterexample): the claim states that `deg2num` returns exactly
`floor((lon + 180)/360 * 2^zoom)` as its x-component for every real
longitude.  At `(lat, lon, zoom) = (0, -270, 0)` the floor formula gives
`-1`, but the source's `int(...)` truncates toward zero and returns `0`. -/
theorem c3_deg2num_floor_formula_cex :
    (deg2num 0 (-270) 0).1 ≠ ⌊((-270 : ℝ) + 180) / 360 * 2 ^ (0 : ℕ)⌋ := by
  have h1 : (deg2num 0 (-270) 0).1 = 0 := by
    show xtile (-270) 0 = 0
    unfold xtile
    rw [pytrunc_of_neg (by norm_num)]
    norm_num
  have h2 : ⌊((-270 : ℝ) + 180) / 360 * 2 ^ (0 : ℕ)⌋ = -1 := by norm_num
  rw [h1, h2]
  decide

/-- C3 (amended): `deg2num` clamps the latitude and returns the pair of
Python `int(...)` truncations (toward zero) of the Web-Mercator formulas;
its x-component agrees with the claimed floor formula whenever the
longitude is at least `-180°` (where the projected value is nonnegative, so
truncation and floor coincide). -/
theorem c3_deg2num_x_floor_of_lon (lat lon : ℝ) (zoom : ℕ) (hlon : -180 ≤ lon) :
    (deg2num lat lon zoom).1 = ⌊(lon + 180) / 360 * 2 ^ zoom⌋ := by
  show xtile lon zoom = _
  exact xtile_eq_floor lon zoom hlon

/-- Witness for `c3_deg2num_x_floor_of_lon` at `(lat, lon, zoom) = (10, 20, 3)`. -/
theorem c3_deg2num_x_floor_of_lon_app :
    -180 ≤ (20 : ℝ) ∧ (deg2num 10 20 3).1 = ⌊((20 : ℝ) + 180) / 360 * 2 ^ (3 : ℕ)⌋ :=
  ⟨by norm_num, c3_deg2num_x_floor_of_lon 10 20 3 (by norm_num)⟩

/-! ### Claim C8 -/

/-- C8 (counterexample): the claim states that the tile column ultimately
used for longitude `lon` equals the one used for `lon + 360·k` for any
integer `k`.  At `lon = -225`, `zoom = 1` the code uses column `0`
(`int(-0.25) = 0`, then `% 2`), while `lon + 360 = 135` uses column `1`. -/
theorem c8_lon_wrap_cex :
    usedColumn ((-225 : ℝ) + 360 * 1) 1 ≠ usedColumn (-225) 1 := by
  have h1 : usedColumn ((-225 : ℝ) + 360 * 1) 1 = 1 := by
    unfold usedColumn xtile
    rw [pytrunc_of_nonneg (by norm_num)]
    norm_num
  have h2 : usedColumn (-225) 1 = 0 := by
    unfold usedColumn xtile
    rw [pytrunc_of_neg (by norm_num)]
    have hc : ⌈((-225 : ℝ) + 180) / 360 * 2 ^ (1 : ℕ)⌉ = 0 := by norm_num
    rw [hc]
    decide
  rw [h1, h2]
  decide

/-- C8 (amended): for longitudes `≥ -180°` (where `int(...)` truncation
coincides with floor) adding any nonnegative multiple of 360° to the
longitude leaves the ultimately fetched tile column unchanged; and the
antimeridian scenario holds as stated: at zoom 1, `lon = 179.9` uses the
last column `2^1 - 1` and `lon = -180.1` uses the adjacent column `0`. -/
theorem c8_lon_wrap_of_ge_neg180 (lon : ℝ) (k zoom : ℕ) (hlon : -180 ≤ lon) :
    usedColumn (lon + 360 * k) zoom = usedColumn lon zoom ∧
    usedColumn 179.9 1 = 2 ^ 1 - 1 ∧ usedColumn (-180.1) 1 = 0 := by
  refine ⟨?_, ?_, ?_⟩
  · unfold usedColumn
    have ht0 : 0 ≤ (lon + 180) / 360 * 2 ^ zoom := by
      apply mul_nonneg (div_nonneg (by linarith) (by norm_num)) (by positivity)
    have hm0 : (0 : ℝ) ≤ (((k : ℤ) * 2 ^ zoom : ℤ) : ℝ) := by positivity
    have hx1 : xtile (lon + 360 * k) zoom
        = ⌊(lon + 180) / 360 * 2 ^ zoom + (((k : ℤ) * 2 ^ zoom : ℤ) : ℝ)⌋ := by
      unfold xtile
      rw [show (lon + 360 * (k : ℝ) + 180) / 360 * 2 ^ zoom
            = (lon + 180) / 360 * 2 ^ zoom + (((k : ℤ) * 2 ^ zoom : ℤ) : ℝ) by
          push_cast
          ring]
      exact pytrunc_of_nonneg (by linarith)
    rw [hx1, Int.floor_add_int, xtile_eq_floor lon zoom hlon]
    exact Int.add_mul_emod_self
  · unfold usedColumn xtile
    rw [pytrunc_of_nonneg (by norm_num)]
    norm_num
  · unfold usedColumn xtile
    rw [pytrunc_of_neg (by norm_num)]
    have hc : ⌈((-180.1 : ℝ) + 180) / 360 * 2 ^ (1 : ℕ)⌉ = 0 := by norm_num
    rw [hc]
    decide

/-- Witness for `c8_lon_wrap_of_ge_neg180` at `(lon, k, zoom) = (0, 1, 1)`. -/
theorem c8_lon_wrap_of_ge_neg180_app :
    -180 ≤ (0 : ℝ) ∧
    (usedColumn ((0 : ℝ) + 360 * ((1 : ℕ) : ℝ)) 1 = usedColumn 0 1 ∧
     usedColumn 179.9 1 = 2 ^ 1 - 1 ∧ usedColumn (-180.1) 1 = 0) :=
  ⟨by norm_num, c8_lon_wrap_of_ge_neg180 0 1 1 (by norm_num)⟩

/-! ### Claim C6 -/

/-- C6: for a positive viewport the compositor computes
`tilesX = ceil(width/tileSize) + 1` and `tilesY = ceil(height/tileSize) + 1`
(the `max(1, ...)` clamp of the source is inactive for positive extents),
computes the top-left tile as `center - (tilesX/2, tilesY/2)` with
floor-semantics integer division, and returns these grid dimensions to the
caller; in particular the grid of `composite(0, 0, zoom=2, 256, 256)` is at
least 2 × 2. -/
theorem c6_grid_dims_ceil_plus_one
    (resample : Img → ℕ → ℕ → Img) (net : ℤ → ℤ → Option Img) (ph0 : Option Img)
    (cx : ℤ) (lat lon : ℝ) (zoom : ℕ) (w h : ℤ) (ts : ℕ)
    (hw : 0 < w) (hh : 0 < h) (hts : 0 < ts) :
    tilesCount w ts = ⌈(w : ℚ) / (ts : ℚ)⌉ + 1 ∧
    tilesCount h ts = ⌈(h : ℚ) / (ts : ℚ)⌉ + 1 ∧
    startTile cx w ts = cx - ⌊(tilesCount w ts : ℚ) / 2⌋ ∧
    (get_tiles_for_region resample net ph0 lat lon zoom w h ts).tiles_x = tilesCount w ts ∧
    (get_tiles_for_region resample net ph0 lat lon zoom w h ts).tiles_y = tilesCount h ts ∧
    2 ≤ (get_tiles_for_region resample net ph0 0 0 2 256 256 256).tiles_x ∧
    2 ≤ (get_tiles_for_region resample net ph0 0 0 2 256 256 256).tiles_y := by
  have hb : (0 : ℤ) < (ts : ℤ) := by exact_mod_cast hts
  have hcount : ∀ v : ℤ, 0 < v → tilesCount v ts = ⌈(v : ℚ) / (ts : ℚ)⌉ + 1 := by
    intro v hv
    unfold tilesCount
    rw [fdiv_ceil_eq v ts hb]
    push_cast
    apply max_eq_right
    have h0 : (0 : ℚ) < (v : ℚ) / (ts : ℚ) :=
      div_pos (by exact_mod_cast hv) (by exact_mod_cast hts)
    have h1 : 0 < ⌈(v : ℚ) / (ts : ℚ)⌉ := Int.ceil_pos.mpr h0
    linarith
  refine ⟨hcount w hw, hcount h hh, ?_, rfl, rfl, ?_, ?_⟩
  · unfold startTile
    rw [fdiv_eq_floor _ 2 (by norm_num)]
    norm_num
  · show 2 ≤ tilesCount 256 256
    decide
  · show 2 ≤ tilesCount 256 256
    decide

/-- Witness for `c6_grid_dims_ceil_plus_one` at concrete arguments. -/
theorem c6_grid_dims_ceil_plus_one_app :
    (0 : ℤ) < 300 ∧ (0 : ℤ) < 100 ∧ 0 < 256 ∧
    (tilesCount 300 256 = ⌈(300 : ℚ) / (256 : ℚ)⌉ + 1 ∧
     tilesCount 100 256 = ⌈(100 : ℚ) / (256 : ℚ)⌉ + 1 ∧
     startTile 7 300 256 = 7 - ⌊(tilesCount 300 256 : ℚ) / 2⌋ ∧
     (get_tiles_for_region resampleConst netFail none 0 0 2 300 100 256).tiles_x
       = tilesCount 300 256 ∧
     (get_tiles_for_region resampleConst netFail none 0 0 2 300 100 256).tiles_y
       = tilesCount 100 256 ∧
     2 ≤ (get_tiles_for_region resampleConst netFail none 0 0 2 256 256 256).tiles_x ∧
     2 ≤ (get_tiles_for_region resampleConst netFail none 0 0 2 256 256 256).tiles_y) :=
  ⟨by norm_num, by norm_num, by norm_num,
   c6_grid_dims_ceil_plus_one resampleConst netFail none 7 0 0 2 300 100 256
     (by norm_num) (by norm_num) (by norm_num)⟩

/-! ### Claim C10 -/

/-- C10 (counterexample): the claim asserts that for every integer width
and height — including negative values — the clamped `(tilesX, tilesY)`
are returned to the caller with no error ever raised.  For
`width_px = -5` the source never returns: `composite.crop((0, 0, -5, 0))`
at tile_loader.py line 145 raises `ValueError` (Pillow rejects a crop box
whose right edge is left of its left edge), so the Pillow-faithful model
yields `none` — nothing is handed to the caller. -/
theorem c10_negative_width_no_return_cex :
    get_tiles_for_region_checked resampleConst netFail none 0 0 3 (-5) 0 256 = none := by
  unfold get_tiles_for_region_checked composeGridChecked Img.cropBox
  rw [if_pos (Or.inl (by norm_num : (-5 : ℤ) < 0))]

/-- C10 (amended): for every integer `width_px` and `height_px` (including
zero and negative values) the `max(1, ...)` clamp keeps both grid
dimensions at least 1 and the allocated working canvas is nonempty — grid
construction itself is total and raises no viewport error.  But the
clamped `(tilesX, tilesY)` reach the caller only when both extents are
nonnegative: then the call returns the composed result (whose grid fields
are exactly the clamped counts); for a negative extent the later Pillow
crop raises and nothing is returned. -/
theorem c10_grid_clamp_and_checked_return
    (resample : Img → ℕ → ℕ → Img) (net : ℤ → ℤ → Option Img) (ph0 : Option Img)
    (lat lon : ℝ) (zoom : ℕ) (w h : ℤ) (ts : ℕ) (hts : 0 < ts) :
    1 ≤ tilesCount w ts ∧ 1 ≤ tilesCount h ts ∧
    0 < (composeCanvas resample net ph0 (deg2num lat lon zoom).1
          (deg2num lat lon zoom).2 zoom w h ts).w ∧
    0 < (composeCanvas resample net ph0 (deg2num lat lon zoom).1
          (deg2num lat lon zoom).2 zoom w h ts).h ∧
    (w < 0 ∨ h < 0 →
      get_tiles_for_region_checked resample net ph0 lat lon zoom w h ts = none) ∧
    (0 ≤ w → 0 ≤ h →
      get_tiles_for_region_checked resample net ph0 lat lon zoom w h ts
        = some (get_tiles_for_region resample net ph0 lat lon zoom w h ts)) ∧
    (get_tiles_for_region resample net ph0 lat lon zoom w h ts).tiles_x = tilesCount w ts ∧
    (get_tiles_for_region resample net ph0 lat lon zoom w h ts).tiles_y = tilesCount h ts := by
  refine ⟨one_le_tilesCount w ts, one_le_tilesCount h ts, ?_, ?_, ?_, ?_, rfl, rfl⟩
  · rw [composeCanvas_w]
    have h1 : 1 ≤ tilesCount w ts := one_le_tilesCount w ts
    have h2 : 0 < (tilesCount w ts).toNat := by omega
    exact Nat.mul_pos h2 hts
  · rw [composeCanvas_h]
    have h1 : 1 ≤ tilesCount h ts := one_le_tilesCount h ts
    have h2 : 0 < (tilesCount h ts).toNat := by omega
    exact Nat.mul_pos h2 hts
  · intro hneg
    unfold get_tiles_for_region_checked composeGridChecked Img.cropBox
    rw [if_pos hneg]
  · intro hw hh
    unfold get_tiles_for_region_checked composeGridChecked Img.cropBox
    rw [if_neg (show ¬(w < 0 ∨ h < 0) by push_neg; exact ⟨hw, hh⟩)]
    rfl

/-- Witness for `c10_grid_clamp_and_checked_return` at the degenerate
viewport `(width_px, height_px) = (-5, 0)`. -/
theorem c10_grid_clamp_and_checked_return_app :
    0 < 256 ∧
    (1 ≤ tilesCount (-5) 256 ∧ 1 ≤ tilesCount 0 256 ∧
     0 < (composeCanvas resampleConst netFail none (deg2num 0 0 3).1
           (deg2num 0 0 3).2 3 (-5) 0 256).w ∧
     0 < (composeCanvas resampleConst netFail none (deg2num 0 0 3).1
           (deg2num 0 0 3).2 3 (-5) 0 256).h ∧
     ((-5 : ℤ) < 0 ∨ (0 : ℤ) < 0 →
       get_tiles_for_region_checked resampleConst netFail none 0 0 3 (-5) 0 256 = none) ∧
     ((0 : ℤ) ≤ -5 → (0 : ℤ) ≤ 0 →
       get_tiles_for_region_checked resampleConst netFail none 0 0 3 (-5) 0 256
         = some (get_tiles_for_region resampleConst netFail none 0 0 3 (-5) 0 256)) ∧
     (get_tiles_for_region resampleConst netFail none 0 0 3 (-5) 0 256).tiles_x
       = tilesCount (-5) 256 ∧
     (get_tiles_for_region resampleConst netFail none 0 0 3 (-5) 0 256).tiles_y
       = tilesCount 0 256) :=
  ⟨by norm_num,
   c10_grid_clamp_and_checked_return resampleConst netFail none 0 0 3 (-5) 0 256
     (by norm_num)⟩

/-! ### Claim C2 -/

/-- C2: for every positive viewport, at any zoom and any (positive) tile
size, the returned raster has pixel dimensions exactly `(width_px,
height_px)`, and every pixel of it is taken unchanged from the oversized
tile canvas starting at the origin — the canvas is cropped, never scaled or
padded (the canvas always covers the crop box). -/
theorem c2_composite_dims_exact
    (resample : Img → ℕ → ℕ → Img) (net : ℤ → ℤ → Option Img) (ph0 : Option Img)
    (lat lon : ℝ) (zoom : ℕ) (w h : ℤ) (ts : ℕ)
    (hw : 0 < w) (hh : 0 < h) (hts : 0 < ts) :
    ((get_tiles_for_region resample net ph0 lat lon zoom w h ts).img.w : ℤ) = w ∧
    ((get_tiles_for_region resample net ph0 lat lon zoom w h ts).img.h : ℤ) = h ∧
    (∀ x y : ℕ, x < w.toNat → y < h.toNat →
      (get_tiles_for_region resample net ph0 lat lon zoom w h ts).img.px x y
        = (composeCanvas resample net ph0 (deg2num lat lon zoom).1
            (deg2num lat lon zoom).2 zoom w h ts).px x y) := by
  refine ⟨?_, ?_, ?_⟩
  · show ((w.toNat : ℤ)) = w
    exact Int.toNat_of_nonneg hw.le
  · show ((h.toNat : ℤ)) = h
    exact Int.toNat_of_nonneg hh.le
  · intro x y hx hy
    show ((composeCanvas resample net ph0 (deg2num lat lon zoom).1
        (deg2num lat lon zoom).2 zoom w h ts).crop0 w.toNat h.toNat).px x y = _
    apply Img.crop0_px_of_lt
    · rw [composeCanvas_w]
      exact lt_of_lt_of_le hx (toNat_le_tilesCount_mul w ts hts)
    · rw [composeCanvas_h]
      exact lt_of_lt_of_le hy (toNat_le_tilesCount_mul h ts hts)

/-- Witness for `c2_composite_dims_exact` at `(w, h, ts) = (100, 50, 256)`. -/
theorem c2_composite_dims_exact_app :
    (0 : ℤ) < 100 ∧ (0 : ℤ) < 50 ∧ 0 < 256 ∧
    (((get_tiles_for_region resampleConst netFail none 0 0 1 100 50 256).img.w : ℤ) = 100 ∧
     ((get_tiles_for_region resampleConst netFail none 0 0 1 100 50 256).img.h : ℤ) = 50 ∧
     (∀ x y : ℕ, x < (100 : ℤ).toNat → y < (50 : ℤ).toNat →
       (get_tiles_for_region resampleConst netFail none 0 0 1 100 50 256).img.px x y
         = (composeCanvas resampleConst netFail none (deg2num 0 0 1).1
             (deg2num 0 0 1).2 1 100 50 256).px x y)) :=
  ⟨by norm_num, by norm_num, by norm_num,
   c2_composite_dims_exact resampleConst netFail none 0 0 1 100 50 256
     (by norm_num) (by norm_num) (by norm_num)⟩

/-! ### Claim C1 -/

/-- C1: the composite entry point is a total function of its oracles (it
never propagates a failure); `download_tile` resolves every tile row index
outside `[0, 2^zoom)` to `none`, and every grid cell whose tile resolution
failed — for any reason the `net` oracle models (network error, timeout,
non-2xx, undecodable payload) or because of an out-of-grid row — shows the
shared placeholder's pixels in the returned raster.  The hypotheses say
that the resampler produces the requested dimensions (as `PIL.resize`
does) and that the cached `_PLACEHOLDER`, if present, has the call's tile
size (as holds whenever one tile size is in use, in particular for the
default 256). -/
theorem c1_composite_recovers_tile_failures
    (resample : Img → ℕ → ℕ → Img) (net : ℤ → ℤ → Option Img) (ph0 : Option Img)
    (lat lon : ℝ) (zoom : ℕ) (w h : ℤ) (ts : ℕ)
    (hts : 0 < ts)
    (hres : ∀ i a b, (resample i a b).w = a ∧ (resample i a b).h = b)
    (hph : ∀ p, ph0 = some p → p.w = ts ∧ p.h = ts) :
    (∀ x y : ℤ, y < 0 ∨ (2 ^ zoom : ℤ) ≤ y → download_tile net zoom x y = none) ∧
    (∀ tx ty i j : ℕ,
      tx < (tilesCount w ts).toNat → ty < (tilesCount h ts).toNat → i < ts → j < ts →
      download_tile net zoom (startTile (deg2num lat lon zoom).1 w ts + tx)
          (startTile (deg2num lat lon zoom).2 h ts + ty) = none →
      tx * ts + i < w.toNat → ty * ts + j < h.toNat →
      (get_tiles_for_region resample net ph0 lat lon zoom w h ts).img.px
          (tx * ts + i) (ty * ts + j)
        = (ph0.getD (mkPlaceholder ts)).px i j) := by
  have hout : ∀ x y : ℤ, y < 0 ∨ (2 ^ zoom : ℤ) ≤ y → download_tile net zoom x y = none := by
    intro x y hy
    unfold download_tile
    rw [if_pos hy]
  refine ⟨hout, ?_⟩
  intro tx ty i j htx hty hi hj hdl hx hy
  have hphw : (ph0.getD (mkPlaceholder ts)).w = ts := by
    cases ph0 with
    | none => rfl
    | some p => exact (hph p rfl).1
  have hphh : (ph0.getD (mkPlaceholder ts)).h = ts := by
    cases ph0 with
    | none => rfl
    | some p => exact (hph p rfl).2
  have hfw : ∀ c : ℕ × ℕ,
      (resolveTile resample net zoom ts (ph0.getD (mkPlaceholder ts))
        (startTile (deg2num lat lon zoom).1 w ts + c.1)
        (startTile (deg2num lat lon zoom).2 h ts + c.2)).w = ts := by
    intro c
    unfold resolveTile
    cases hdt : download_tile net zoom (startTile (deg2num lat lon zoom).1 w ts + c.1)
        (startTile (deg2num lat lon zoom).2 h ts + c.2) with
    | none => exact hphw
    | some im =>
      show (if im.w = ts ∧ im.h = ts then im else resample im ts ts).w = ts
      split_ifs with hsz
      · exact hsz.1
      · exact (hres im ts ts).1
  have hfh : ∀ c : ℕ × ℕ,
      (resolveTile resample net zoom ts (ph0.getD (mkPlaceholder ts))
        (startTile (deg2num lat lon zoom).1 w ts + c.1)
        (startTile (deg2num lat lon zoom).2 h ts + c.2)).h = ts := by
    intro c
    unfold resolveTile
    cases hdt : download_tile net zoom (startTile (deg2num lat lon zoom).1 w ts + c.1)
        (startTile (deg2num lat lon zoom).2 h ts + c.2) with
    | none => exact hphh
    | some im =>
      show (if im.w = ts ∧ im.h = ts then im else resample im ts ts).h = ts
      split_ifs with hsz
      · exact hsz.2
      · exact (hres im ts ts).2
  have hcanw : tx * ts + i < (composeCanvas resample net ph0 (deg2num lat lon zoom).1
      (deg2num lat lon zoom).2 zoom w h ts).w := by
    rw [composeCanvas_w]
    calc tx * ts + i < tx * ts + ts := by omega
      _ = (tx + 1) * ts := by ring
      _ ≤ (tilesCount w ts).toNat * ts := mul_le_mul_right' (by omega) ts
  have hcanh : ty * ts + j < (composeCanvas resample net ph0 (deg2num lat lon zoom).1
      (deg2num lat lon zoom).2 zoom w h ts).h := by
    rw [composeCanvas_h]
    calc ty * ts + j < ty * ts + ts := by omega
      _ = (ty + 1) * ts := by ring
      _ ≤ (tilesCount h ts).toNat * ts := mul_le_mul_right' (by omega) ts
  show ((composeCanvas resample net ph0 (deg2num lat lon zoom).1
      (deg2num lat lon zoom).2 zoom w h ts).crop0 w.toNat h.toNat).px
        (tx * ts + i) (ty * ts + j) = _
  rw [Img.crop0_px_of_lt _ _ _ _ _ hcanw hcanh]
  have hmem : (tx, ty) ∈ gridCells (tilesCount w ts).toNat (tilesCount h ts).toNat :=
    mem_gridCells.mpr ⟨htx, hty⟩
  have hkey : (composeCanvas resample net ph0 (deg2num lat lon zoom).1
      (deg2num lat lon zoom).2 zoom w h ts).px (tx * ts + i) (ty * ts + j)
      = (resolveTile resample net zoom ts (ph0.getD (mkPlaceholder ts))
          (startTile (deg2num lat lon zoom).1 w ts + tx)
          (startTile (deg2num lat lon zoom).2 h ts + ty)).px i j := by
    unfold composeCanvas
    exact foldl_paste_px_cell ts hts
      (fun c => resolveTile resample net zoom ts (ph0.getD (mkPlaceholder ts))
        (startTile (deg2num lat lon zoom).1 w ts + c.1)
        (startTile (deg2num lat lon zoom).2 h ts + c.2))
      hfw hfh (tx, ty) i j hi hj _ _
      (gridCells_nodup _ _) hmem
  rw [hkey]
  unfold resolveTile
  rw [hdl]

/-- Witness for `c1_composite_recovers_tile_failures` with the always-
failing network oracle, a fresh placeholder global, zoom 2, a 300×200
viewport and the default 256-pixel tiles. -/
theorem c1_composite_recovers_tile_failures_app :
    0 < 256 ∧
    (∀ i a b, (resampleConst i a b).w = a ∧ (resampleConst i a b).h = b) ∧
    (∀ p : Img, (none : Option Img) = some p → p.w = 256 ∧ p.h = 256) ∧
    ((∀ x y : ℤ, y < 0 ∨ (2 ^ (2 : ℕ) : ℤ) ≤ y → download_tile netFail 2 x y = none) ∧
     (∀ tx ty i j : ℕ,
       tx < (tilesCount 300 256).toNat → ty < (tilesCount 200 256).toNat →
       i < 256 → j < 256 →
       download_tile netFail 2 (startTile (deg2num 0 0 2).1 300 256 + tx)
           (startTile (deg2num 0 0 2).2 200 256 + ty) = none →
       tx * 256 + i < (300 : ℤ).toNat → ty * 256 + j < (200 : ℤ).toNat →
       (get_tiles_for_region resampleConst netFail none 0 0 2 300 200 256).img.px
           (tx * 256 + i) (ty * 256 + j)
         = ((none : Option Img).getD (mkPlaceholder 256)).px i j)) :=
  ⟨by norm_num, fun i a b => ⟨rfl, rfl⟩, fun p hp => Option.noConfusion hp,
   c1_composite_recovers_tile_failures resampleConst netFail none 0 0 2 300 200 256
     (by norm_num) (fun i a b => ⟨rfl, rfl⟩) (fun p hp => Option.noConfusion hp)⟩

/-! ### Branch equations for the stateful `download_tile` -/

theorem download_tile_run_network (net : TileKey → Option Img) (s : TLState)
    (x y : ℤ) (z : ℕ) (img : Img)
    (hy : ¬(y < 0 ∨ (2 ^ z : ℤ) ≤ y))
    (hdisk : s.disk (z, x % (2 ^ z : ℤ), y) = none)
    (hnet : net (z, x % (2 ^ z : ℤ), y) = some img) :
    download_tile_run net true s x y z
      = (some img, TileSource.network,
         ⟨s.mem, fun k => if k = (z, x % (2 ^ z : ℤ), y) then some (some img)
                          else s.disk k⟩) := by
  unfold download_tile_run
  rw [if_neg hy, hdisk]
  unfold networkFetch
  rw [hnet]
  rfl

theorem download_tile_run_save_fails (net : TileKey → Option Img) (s : TLState)
    (x y : ℤ) (z : ℕ) (img : Img)
    (hy : ¬(y < 0 ∨ (2 ^ z : ℤ) ≤ y))
    (hdisk : s.disk (z, x % (2 ^ z : ℤ), y) = none)
    (hnet : net (z, x % (2 ^ z : ℤ), y) = some img) :
    download_tile_run net false s x y z = (none, TileSource.absent, s) := by
  unfold download_tile_run
  rw [if_neg hy, hdisk]
  unfold networkFetch
  rw [hnet]
  rfl

theorem download_tile_run_diskRead (net : TileKey → Option Img) (saveOk : Bool)
    (s : TLState) (x y : ℤ) (z : ℕ) (img : Img)
    (hy : ¬(y < 0 ∨ (2 ^ z : ℤ) ≤ y))
    (hdisk : s.disk (z, x % (2 ^ z : ℤ), y) = some (some img))
    (hmem : lookupAssoc s.mem (z, x % (2 ^ z : ℤ), y) = none) :
    download_tile_run net saveOk s x y z
      = (some img, TileSource.diskRead,
         ⟨(((z, x % (2 ^ z : ℤ), y), img) :: s.mem).take 2048, s.disk⟩) := by
  unfold download_tile_run
  rw [if_neg hy, hdisk, hmem]

theorem download_tile_run_memHit (net : TileKey → Option Img) (saveOk : Bool)
    (s : TLState) (x y : ℤ) (z : ℕ) (fc : Option Img) (img : Img)
    (hy : ¬(y < 0 ∨ (2 ^ z : ℤ) ≤ y))
    (hdisk : s.disk (z, x % (2 ^ z : ℤ), y) = some fc)
    (hmem : lookupAssoc s.mem (z, x % (2 ^ z : ℤ), y) = some img) :
    download_tile_run net saveOk s x y z
      = (some img, TileSource.memHit,
         ⟨((z, x % (2 ^ z : ℤ), y), img) :: eraseKey s.mem (z, x % (2 ^ z : ℤ), y),
          s.disk⟩) := by
  unfold download_tile_run
  rw [if_neg hy, hdisk, hmem]

/-! ### Claim C4 -/

/-- C4 (counterexample): the claim states that after a successful network
fetch the decoded tile is stored in both cache tiers, so the immediately
following lookup hits the memory tier without disk I/O.  In a fresh state
with a working network, the fetch of tile `(z, x, y) = (0, 0, 0)` leaves
the memory tier empty, and the immediately following lookup of the same
tile is a disk read, not a memory hit. -/
theorem c4_network_not_stored_in_memory_cex :
    (download_tile_run netOk true emptyTL 0 0 0).2.2.mem = [] ∧
    (download_tile_run netOk true
        (download_tile_run netOk true emptyTL 0 0 0).2.2 0 0 0).2.1
      = TileSource.diskRead := by
  constructor
  · rfl
  · rfl

/-- C4 (amended): a successful network fetch stores the decoded tile in the
on-disk tier only, returning the image; the memory tier is unchanged.  The
immediately following lookup of the same tile address reads it back from
disk (one disk read) and only then promotes it into the memory tier, so it
is the third lookup that hits memory.  All three lookups return the same
image. -/
theorem c4_network_fetch_disk_then_promote
    (net : TileKey → Option Img) (s : TLState) (x y : ℤ) (z : ℕ) (img : Img)
    (hy : 0 ≤ y ∧ y < (2 ^ z : ℤ))
    (hdisk : s.disk (z, x % (2 ^ z : ℤ), y) = none)
    (hmem : lookupAssoc s.mem (z, x % (2 ^ z : ℤ), y) = none)
    (hnet : net (z, x % (2 ^ z : ℤ), y) = some img) :
    (download_tile_run net true s x y z).1 = some img ∧
    (download_tile_run net true s x y z).2.1 = TileSource.network ∧
    (download_tile_run net true s x y z).2.2.mem = s.mem ∧
    (download_tile_run net true s x y z).2.2.disk (z, x % (2 ^ z : ℤ), y)
      = some (some img) ∧
    (download_tile_run net true (download_tile_run net true s x y z).2.2 x y z).1
      = some img ∧
    (download_tile_run net true (download_tile_run net true s x y z).2.2 x y z).2.1
      = TileSource.diskRead ∧
    (download_tile_run net true
        (download_tile_run net true (download_tile_run net true s x y z).2.2 x y z).2.2
        x y z).1 = some img ∧
    (download_tile_run net true
        (download_tile_run net true (download_tile_run net true s x y z).2.2 x y z).2.2
        x y z).2.1 = TileSource.memHit := by
  have hc : ¬(y < 0 ∨ (2 ^ z : ℤ) ≤ y) := by
    push_neg
    exact ⟨hy.1, hy.2⟩
  have e1 := download_tile_run_network net s x y z img hc hdisk hnet
  have hd1 : (⟨s.mem, fun k => if k = (z, x % (2 ^ z : ℤ), y) then some (some img)
      else s.disk k⟩ : TLState).disk (z, x % (2 ^ z : ℤ), y) = some (some img) := by
    show (if (z, x % (2 ^ z : ℤ), y) = (z, x % (2 ^ z : ℤ), y) then some (some img)
      else s.disk (z, x % (2 ^ z : ℤ), y)) = some (some img)
    rw [if_pos rfl]
  have e2 := download_tile_run_diskRead net true
    (⟨s.mem, fun k => if k = (z, x % (2 ^ z : ℤ), y) then some (some img)
      else s.disk k⟩ : TLState) x y z img hc hd1 hmem
  have hm2 : lookupAssoc ((((z, x % (2 ^ z : ℤ), y), img) :: s.mem).take 2048)
      (z, x % (2 ^ z : ℤ), y) = some img := by
    rw [show (2048 : ℕ) = 2047 + 1 from rfl, List.take_succ_cons]
    exact lookupAssoc_cons_self _ _ _
  have e3 := download_tile_run_memHit net true
    (⟨(((z, x % (2 ^ z : ℤ), y), img) :: s.mem).take 2048,
      fun k => if k = (z, x % (2 ^ z : ℤ), y) then some (some img) else s.disk k⟩ : TLState)
    x y z (some img) img hc hd1 hm2
  refine ⟨?_, ?_, ?_, ?_, ?_, ?_, ?_, ?_⟩
  · rw [e1]
  · rw [e1]
  · rw [e1]
  · rw [e1]
    exact hd1
  · rw [e1]
    show (download_tile_run net true
      (⟨s.mem, fun k => if k = (z, x % (2 ^ z : ℤ), y) then some (some img)
        else s.disk k⟩ : TLState) x y z).1 = some img
    rw [e2]
  · rw [e1]
    show (download_tile_run net true
      (⟨s.mem, fun k => if k = (z, x % (2 ^ z : ℤ), y) then some (some img)
        else s.disk k⟩ : TLState) x y z).2.1 = TileSource.diskRead
    rw [e2]
  · rw [e1]
    show (download_tile_run net true
      (download_tile_run net true
        (⟨s.mem, fun k => if k = (z, x % (2 ^ z : ℤ), y) then some (some img)
          else s.disk k⟩ : TLState) x y z).2.2 x y z).1 = some img
    rw [e2]
    show (download_tile_run net true
      (⟨(((z, x % (2 ^ z : ℤ), y), img) :: s.mem).take 2048,
        fun k => if k = (z, x % (2 ^ z : ℤ), y) then some (some img)
          else s.disk k⟩ : TLState) x y z).1 = some img
    rw [e3]
  · rw [e1]
    show (download_tile_run net true
      (download_tile_run net true
        (⟨s.mem, fun k => if k = (z, x % (2 ^ z : ℤ), y) then some (some img)
          else s.disk k⟩ : TLState) x y z).2.2 x y z).2.1 = TileSource.memHit
    rw [e2]
    show (download_tile_run net true
      (⟨(((z, x % (2 ^ z : ℤ), y), img) :: s.mem).take 2048,
        fun k => if k = (z, x % (2 ^ z : ℤ), y) then some (some img)
          else s.disk k⟩ : TLState) x y z).2.1 = TileSource.memHit
    rw [e3]

/-- Witness for `c4_network_fetch_disk_then_promote` at tile `(0, 0, 0)`
from the empty state with a delivering network. -/
theorem c4_network_fetch_disk_then_promote_app :
    ((0 : ℤ) ≤ 0 ∧ (0 : ℤ) < (2 ^ (0 : ℕ) : ℤ)) ∧
    emptyTL.disk (0, (0 : ℤ) % (2 ^ (0 : ℕ) : ℤ), 0) = none ∧
    lookupAssoc emptyTL.mem (0, (0 : ℤ) % (2 ^ (0 : ℕ) : ℤ), 0) = none ∧
    netOk (0, (0 : ℤ) % (2 ^ (0 : ℕ) : ℤ), 0) = some testImg ∧
    ((download_tile_run netOk true emptyTL 0 0 0).1 = some testImg ∧
     (download_tile_run netOk true emptyTL 0 0 0).2.1 = TileSource.network ∧
     (download_tile_run netOk true emptyTL 0 0 0).2.2.mem = emptyTL.mem ∧
     (download_tile_run netOk true emptyTL 0 0 0).2.2.disk
         (0, (0 : ℤ) % (2 ^ (0 : ℕ) : ℤ), 0) = some (some testImg) ∧
     (download_tile_run netOk true (download_tile_run netOk true emptyTL 0 0 0).2.2 0 0 0).1
       = some testImg ∧
     (download_tile_run netOk true (download_tile_run netOk true emptyTL 0 0 0).2.2 0 0 0).2.1
       = TileSource.diskRead ∧
     (download_tile_run netOk true
         (download_tile_run netOk true
           (download_tile_run netOk true emptyTL 0 0 0).2.2 0 0 0).2.2 0 0 0).1
       = some testImg ∧
     (download_tile_run netOk true
         (download_tile_run netOk true
           (download_tile_run netOk true emptyTL 0 0 0).2.2 0 0 0).2.2 0 0 0).2.1
       = TileSource.memHit) :=
  ⟨⟨by norm_num, by norm_num⟩, rfl, rfl, rfl,
   c4_network_fetch_disk_then_promote netOk emptyTL 0 0 0 testImg
     ⟨by norm_num, by norm_num⟩ rfl rfl rfl⟩

/-! ### Claim C5 -/

/-- C5: with a fully successful fetch-and-decode but a failing `img.save`
(e.g. a full disk), `download_tile` returns `None` — the successfully
decoded tile is discarded, because `img.save` sits inside the `try` block
whose `except` returns `None` — whereas the identical call with a working
save returns the decoded tile.  This contradicts the claim (and the spec's
CacheWriteFailure contract), so the disk-write failure is fatal to the
in-flight request and the caller pastes a placeholder. -/
theorem c5_save_failure_discards_fetched_tile :
    (download_tile_run netOk false emptyTL 0 0 0).1 = none ∧
    (download_tile_run netOk true emptyTL 0 0 0).1 = some testImg := by
  constructor
  · rfl
  · rfl

/-! ### Claim C7 -/

/-- C7: calling `get_tiles_cached` a second time with the identical
argument tuple is served from the result cache: the compositor (and hence
the network) is not invoked again (`ran = false`) and the same result is
returned.  The key is the exact tuple: starting from an empty cache,
calling with `q` and then with any `q' ≠ q` (a difference in any component)
runs the compositor again. -/
theorem c7_result_cache_exact_key
    (resample : Img → ℕ → ℕ → Img) (net : ℤ → ℤ → Option Img) (ph0 : Option Img)
    (m : List (CacheKey × CompositeResult)) (q q' : CacheKey) (hne : q ≠ q') :
    ((get_tiles_cached resample net ph0
        (get_tiles_cached resample net ph0 m q).2.1 q).2.2 = false ∧
     (get_tiles_cached resample net ph0
        (get_tiles_cached resample net ph0 m q).2.1 q).1
       = (get_tiles_cached resample net ph0 m q).1) ∧
    (get_tiles_cached resample net ph0
        (get_tiles_cached resample net ph0 [] q).2.1 q').2.2 = true := by
  constructor
  · exact lruCall_second_hit 256 (by norm_num) _ m q
  · have hstate := lruCall_empty_state 256 (by norm_num)
      (fun k : CacheKey =>
        get_tiles_for_region resample net ph0 k.1 k.2.1 k.2.2.1 k.2.2.2.1 k.2.2.2.2 256) q
    unfold get_tiles_cached
    apply lruCall_miss
    rw [hstate]
    exact lookupAssoc_single_ne _ _ _ hne

/-- Witness for `c7_result_cache_exact_key`: the keys differ only in the
requested width (256 vs 257 pixels). -/
theorem c7_result_cache_exact_key_app :
    (((0 : ℝ), (0 : ℝ), (2 : ℕ), (256 : ℤ), (256 : ℤ)) : CacheKey)
      ≠ (((0 : ℝ), (0 : ℝ), (2 : ℕ), (257 : ℤ), (256 : ℤ)) : CacheKey) ∧
    (((get_tiles_cached resampleConst netFail none
         (get_tiles_cached resampleConst netFail none []
           ((0 : ℝ), (0 : ℝ), (2 : ℕ), (256 : ℤ), (256 : ℤ))).2.1
         ((0 : ℝ), (0 : ℝ), (2 : ℕ), (256 : ℤ), (256 : ℤ))).2.2 = false ∧
      (get_tiles_cached resampleConst netFail none
         (get_tiles_cached resampleConst netFail none []
           ((0 : ℝ), (0 : ℝ), (2 : ℕ), (256 : ℤ), (256 : ℤ))).2.1
         ((0 : ℝ), (0 : ℝ), (2 : ℕ), (256 : ℤ), (256 : ℤ))).1
        = (get_tiles_cached resampleConst netFail none []
           ((0 : ℝ), (0 : ℝ), (2 : ℕ), (256 : ℤ), (256 : ℤ))).1) ∧
     (get_tiles_cached resampleConst netFail none
         (get_tiles_cached resampleConst netFail none []
           ((0 : ℝ), (0 : ℝ), (2 : ℕ), (256 : ℤ), (256 : ℤ))).2.1
         ((0 : ℝ), (0 : ℝ), (2 : ℕ), (257 : ℤ), (256 : ℤ))).2.2 = true) :=
  ⟨by
     intro hcon
     have h4 := congrArg (fun k : CacheKey => k.2.2.2.1) hcon
     norm_num at h4,
   c7_result_cache_exact_key resampleConst netFail none []
     ((0 : ℝ), (0 : ℝ), (2 : ℕ), (256 : ℤ), (256 : ℤ))
     ((0 : ℝ), (0 : ℝ), (2 : ℕ), (257 : ℤ), (256 : ℤ))
     (by
       intro hcon
       have h4 := congrArg (fun k : CacheKey => k.2.2.2.1) hcon
       norm_num at h4)⟩

/-! ### Claim C9 -/

/-- The result-cache key of the modelled render scenario: center `(0, 0)`,
zoom 0, a 64 × 64-pixel viewport. -/
def key0 : CacheKey := ((0 : ℝ), (0 : ℝ), (0 : ℕ), (64 : ℤ), (64 : ℤ))

/-- C9: the composite raster handed out by `get_tiles_cached` is mutated
after publication: `MapWidget.render` draws the footer (and marker) in
place on the very object stored in the result cache, so the next cache hit
for the same key returns the drawn-on raster, not pixel data identical to
what the first call produced.  Concretely, after one render of the `key0`
viewport with every tile unavailable, the cache-hit raster has the footer
colour `(6, 6, 6)` at pixel `(0, 63)`, while the composite produced by the
compositor for the same request has the placeholder colour
`(220, 220, 220)` there. -/
theorem c9_render_mutates_cached_composite :
    (get_tiles_cached resampleConst netFail none
        (render_cached resampleConst netFail none overlayFooter [] key0).2 key0).1.img.px 0 63
      = (6, 6, 6) ∧
    (get_tiles_for_region resampleConst netFail none 0 0 0 64 64 256).img.px 0 63
      = (220, 220, 220) := by
  constructor
  · unfold render_cached get_tiles_cached
    set F : CacheKey → CompositeResult :=
      fun k => get_tiles_for_region resampleConst netFail none
        k.1 k.2.1 k.2.2.1 k.2.2.2.1 k.2.2.2.2 256 with hF
    have h1 : (lruCall 256 F [] key0).2.1 = [(key0, F key0)] :=
      lruCall_empty_state 256 (by norm_num) F key0
    have h1v : (lruCall 256 F [] key0).1 = F key0 := rfl
    rw [h1, h1v]
    have h2 : setAssoc [(key0, F key0)] key0
        (⟨overlayFooter (F key0).img, (F key0).tiles_x, (F key0).tiles_y⟩ : CompositeResult)
        = [(key0, ⟨overlayFooter (F key0).img, (F key0).tiles_x, (F key0).tiles_y⟩)] := by
      unfold setAssoc
      simp
    rw [h2]
    have h3 : lookupAssoc
        [(key0, (⟨overlayFooter (F key0).img, (F key0).tiles_x,
          (F key0).tiles_y⟩ : CompositeResult))] key0
        = some ⟨overlayFooter (F key0).img, (F key0).tiles_x, (F key0).tiles_y⟩ :=
      lookupAssoc_cons_self _ _ _
    have h4 : (lruCall 256 F
        [(key0, (⟨overlayFooter (F key0).img, (F key0).tiles_x,
          (F key0).tiles_y⟩ : CompositeResult))] key0).1
        = ⟨overlayFooter (F key0).img, (F key0).tiles_x, (F key0).tiles_y⟩ := by
      unfold lruCall
      rw [h3]
    rw [h4]
    show (if (F key0).img.h - 16 ≤ 63 then ((6, 6, 6) : Color)
      else (F key0).img.px 0 63) = (6, 6, 6)
    have h5 : (F key0).img.h = 64 := rfl
    rw [h5]
    norm_num
  · unfold get_tiles_for_region
    rw [deg2num_zero_zero 0]
    show (composeGrid resampleConst netFail none ⌊(2 : ℝ) ^ (0 : ℕ) / 2⌋
      ⌊(2 : ℝ) ^ (0 : ℕ) / 2⌋ 0 64 64 256).img.px 0 63 = (220, 220, 220)
    have hfl : ⌊(2 : ℝ) ^ (0 : ℕ) / 2⌋ = (0 : ℤ) := by norm_num
    rw [hfl]
    decide

end TextualMap
